import Mathlib

/-!
# PrivInspect domain classifier — shallow embedding and verification

This file embeds the domain-classification core of the PrivInspect
repository (the tracker-detection module exporting `KNOWN_TRACKERS`,
`getDomainFromUrl`, `extractDomainKeywords`, `isThirdPartyDomain`,
`isKnownTracker`, plus the simplified `isThirdPartyDomain` variant shipped
in `client/src/utils/trackerDetection.ts`) and proves properties of it.

JavaScript strings are embedded as `List Char` (`Str`).  The JavaScript
operations used by the source are embedded as follows:

* `s.replace(/^www\./, "")`      — drop a single leading `"www."`;
* `s.replace(/\.(tld…)(\.|$).*/ , "")` — leftmost-match, first-alternative
  regex semantics, with `.` not matching a line terminator (`stripTld`);
* `s.split('.')` / `s.split(/[.\-_]/)` — `splitOnChar` (empty fields kept);
* `s.endsWith(t)` — list suffix; `s.includes(t)` — list infix;
* `Set` (insertion-ordered, duplicate-free) — a list with `insertKw`;
* `s.toLowerCase()` — ASCII lowercasing `jsToLower` (the tracker list and
  all comparisons in the source are ASCII).
-/

/-- A JavaScript string, embedded as its list of characters. -/
abbrev Str := List Char

/-- ASCII lowercasing; embeds `String.prototype.toLowerCase` on the ASCII
range, which is the only range exercised by the source's data. -/
def jsToLower (s : Str) : Str := s.map Char.toLower

/-- The four JavaScript line terminators, which `.` in a regex does not
match. -/
def isLineTerm (c : Char) : Bool :=
  c == '\n' || c == '\r' || c.toNat == 0x2028 || c.toNat == 0x2029

/-- The string `"www."` as a character list. -/
def wwwDot : Str := ['w', 'w', 'w', '.']

/-- Embeds `domain.replace(/^www\./, "")`: strip one leading `"www."`. -/
def stripWww (s : Str) : Str := if wwwDot <+: s then s.drop 4 else s

/-- Embeds `s.split(sep)` for a single-character separator class: split at every
character satisfying `p`, keeping empty fields (JavaScript semantics:
the result always has at least one element). -/
def splitOnChar (p : Char → Bool) : Str → List Str
  | [] => [[]]
  | c :: cs =>
    if p c then [] :: splitOnChar p cs
    else
      match splitOnChar p cs with
      | t :: ts => (c :: t) :: ts
      | [] => [[c]]

/-- Embeds `parts.join('.')`. -/
def joinDots : List Str → Str
  | [] => []
  | [p] => p
  | p :: ps => p ++ '.' :: joinDots ps

/-- The inner helper `getBaseDomain` of `isThirdPartyDomain`
(`part_001`, lines 149–156): `domain.split('.')`, and when there are at
least two labels, the last two joined by `'.'`; otherwise the domain
itself. -/
def getBaseDomain (domain : Str) : Str :=
  let parts := splitOnChar (fun c => c == '.') domain
  if 2 ≤ parts.length then joinDots (parts.drop (parts.length - 2))
  else domain

/-- The TLD alternatives of the regex in `extractDomainKeywords`
(`part_001`, line 62), in source order. -/
def tlds : List Str :=
  ["com", "org", "net", "edu", "gov", "io", "co", "uk", "de", "fr", "jp",
   "au", "ca", "br", "in", "ru", "cn", "mx", "it", "es", "nl", "se", "no",
   "dk", "fi", "pl", "be", "at", "ch", "cz", "hu", "gr", "pt", "ro", "bg",
   "hr", "sk", "si", "ee", "lv", "lt", "lu", "mt", "cy"].map String.toList

/-- At a position whose character was `'.'`, find the first TLD
alternative that matches the rest and is followed by `'.'` or the end of
the string (the `(\.|$)` group). -/
def findTld (rest : Str) : Option Str :=
  tlds.find? (fun t =>
    t.isPrefixOf rest &&
      match rest.drop t.length with
      | [] => true
      | c :: _ => c == '.')

/-- Embeds `domain.replace(/\.(com|org|…|cy)(\.|$).*/, "")`: scan left to right
for the first `'.'` followed by a listed TLD followed by `'.'` or end of
string; on a match, delete from that `'.'` through the end of the
`.*` group (which stops at a line terminator); otherwise keep the
character and continue. -/
def stripTld : Str → Str
  | [] => []
  | c :: cs =>
    if c == '.' then
      match findTld cs with
      | some t =>
        let after := cs.drop t.length
        let afterGroup := match after with
          | '.' :: r => r
          | _ => after
        afterGroup.dropWhile (fun ch => !(isLineTerm ch))
      | none => c :: stripTld cs
    else c :: stripTld cs

/-- The generic-word stoplist of `extractDomainKeywords` (`part_001`,
lines 70–95). -/
def genericWords : List Str :=
  ["www", "cdn", "static", "assets", "api", "img", "images", "js", "css",
   "media", "content", "data", "files", "docs", "blog", "news", "store",
   "shop", "mail", "email", "support", "help", "admin",
   "secure"].map String.toList

/-- Embeds `Set.add`: append the element unless it is already present
(JavaScript sets are insertion-ordered and duplicate-free). -/
def insertKw (ks : List Str) (x : Str) : List Str :=
  if x ∈ ks then ks else ks ++ [x]

/-- The stem-expansion block of `extractDomainKeywords` (`part_001`,
lines 103–118): for each already-collected keyword of length ≥ 4 that is
a substring of `part` or of which `part` is a substring, re-add both it
and `part` to the set. -/
def stemExpand (ks : List Str) (part : Str) : List Str :=
  ks.foldl
    (fun acc ek =>
      if 4 ≤ ek.length ∧ (ek <:+: part ∨ part <:+: ek) then
        insertKw (insertKw acc ek) part
      else acc)
    ks

/-- Embeds `extractDomainKeywords` (`part_001`, lines 57–123): strip `"www."`
and the recognized TLD suffix, split on `'.'`, `'-'`, `'_'`, and collect
tokens of length ≥ 3 that are not generic words; for tokens of length
≥ 6 additionally run the stem-expansion block. -/
def extractDomainKeywords (domain : Str) : List Str :=
  let cleanDomain := stripTld (stripWww domain)
  let parts := splitOnChar (fun c => c == '.' || c == '-' || c == '_') cleanDomain
  parts.foldl
    (fun keywords part =>
      if 3 ≤ part.length ∧ part ∉ genericWords then
        let keywords1 := insertKw keywords part
        if 6 ≤ part.length then stemExpand keywords1 part else keywords1
      else keywords)
    []

/-- Variant of `extractDomainKeywords` with the stem-expansion block deleted:
tokens of length ≥ 3 that are not generic words, in order of first
appearance, and nothing else. -/
def extractDomainKeywordsSimple (domain : Str) : List Str :=
  let cleanDomain := stripTld (stripWww domain)
  let parts := splitOnChar (fun c => c == '.' || c == '-' || c == '_') cleanDomain
  parts.foldl
    (fun keywords part =>
      if 3 ≤ part.length ∧ part ∉ genericWords then insertKw keywords part
      else keywords)
    []

/-- The keyword-comparison loop of `isThirdPartyDomain` (`part_001`,
lines 171–187): some page keyword and some request keyword, each of
length ≥ 4, are equal or one contains the other. -/
def keywordsOverlap (pageKeywords requestKeywords : List Str) : Bool :=
  pageKeywords.any (fun pk =>
    decide (4 ≤ pk.length) &&
      requestKeywords.any (fun rk =>
        decide (4 ≤ rk.length) &&
          (pk == rk || decide (rk <:+: pk) || decide (pk <:+: rk))))

/-- The check sequence of the full `isThirdPartyDomain` (`part_001`,
lines 125–191) after `"www."`-stripping: equality, dotted-subdomain in
both directions, base-domain equality, keyword overlap; each successful
check exits with `false`, and `true` is returned otherwise. -/
def classifyCleaned (cleanRequestDomain cleanPageDomain : Str) : Bool :=
  if cleanRequestDomain = cleanPageDomain then false
  else if ('.' :: cleanPageDomain) <:+ cleanRequestDomain then false
  else if ('.' :: cleanRequestDomain) <:+ cleanPageDomain then false
  else if getBaseDomain cleanRequestDomain = getBaseDomain cleanPageDomain then false
  else if keywordsOverlap (extractDomainKeywords cleanPageDomain)
      (extractDomainKeywords cleanRequestDomain) then false
  else true

/-- The full `isThirdPartyDomain` variant (`part_001`, lines 125–191). -/
def isThirdPartyDomain (requestDomain pageDomain : Str) : Bool :=
  classifyCleaned (stripWww requestDomain) (stripWww pageDomain)

/-- The simple `isThirdPartyDomain` variant
(`client/src/utils/trackerDetection.ts`, lines 57–70):
`!cleanRequestDomain.endsWith(cleanPageDomain) &&
cleanRequestDomain !== cleanPageDomain` after `"www."`-stripping. -/
def isThirdPartyDomainSimple (requestDomain pageDomain : Str) : Bool :=
  let cleanRequestDomain := stripWww requestDomain
  let cleanPageDomain := stripWww pageDomain
  !decide (cleanPageDomain <:+ cleanRequestDomain) &&
    !decide (cleanRequestDomain = cleanPageDomain)

/-- The `KNOWN_TRACKERS` set (`part_001`, lines 3–47), in source order. -/
def KNOWN_TRACKERS : List Str :=
  ["google-analytics.com", "googletagmanager.com", "googleadservices.com",
   "doubleclick.net", "facebook.com", "facebook.net", "fbcdn.net",
   "connect.facebook.net", "googlesyndication.com", "adsystem.amazon.com",
   "amazon-adsystem.com", "adsymptotic.com", "twitter.com", "t.co",
   "linkedin.com", "instagram.com", "hotjar.com", "mixpanel.com",
   "segment.com", "amplitude.com", "fullstory.com", "loggly.com",
   "newrelic.com", "pingdom.net", "quantserve.com",
   "scorecardresearch.com", "comscore.com", "bing.com", "yahoo.com",
   "yandex.ru", "baidu.com", "cdnjs.cloudflare.com",
   "ajax.googleapis.com", "maxcdn.bootstrapcdn.com"].map String.toList

/-- Embeds `isKnownTracker` (`part_001`, lines 193–195):
`KNOWN_TRACKERS.has(domain.toLowerCase())`. -/
def isKnownTracker (domain : Str) : Bool :=
  decide (jsToLower domain ∈ KNOWN_TRACKERS)

/-- ASCII letter. -/
def isAsciiAlpha (c : Char) : Bool :=
  ('a' ≤ c && c ≤ 'z') || ('A' ≤ c && c ≤ 'Z')

/-- A character allowed after the first one in a URL scheme. -/
def isSchemeChar (c : Char) : Bool :=
  isAsciiAlpha c || ('0' ≤ c && c ≤ '9') || c == '+' || c == '-' || c == '.'

/-- Scheme parsing of the WHATWG URL parser: an ASCII letter followed by
scheme characters up to a `':'`.  Returns the lowercased scheme and the
rest of the input, or `none` when the input has no valid scheme (which
makes the `URL` constructor throw). -/
def parseScheme (s : Str) : Option (Str × Str) :=
  match s with
  | [] => none
  | c :: cs => if isAsciiAlpha c then go [c] cs else none
where
  go (acc : Str) : Str → Option (Str × Str)
    | [] => none
    | c :: cs =>
      if c == ':' then some (jsToLower acc.reverse, cs)
      else if isSchemeChar c then go (c :: acc) cs
      else none

/-- The special schemes of the WHATWG URL standard whose authority is
mandatory for our purposes. -/
def specialSchemes : List Str :=
  ["http", "https", "ws", "wss", "ftp"].map String.toList

/-- Code points that end the host portion of an authority. -/
def isAuthorityEnd (c : Char) : Bool :=
  c == '/' || c == '\\' || c == '?' || c == '#'

/-- Code points forbidden inside a host. -/
def isForbiddenHostChar (c : Char) : Bool :=
  c == ' ' || c == '\t' || c == '\n' || c == '\r' || c == '#' || c == '/' ||
    c == ':' || c == '<' || c == '>' || c == '?' || c == '@' || c == '[' ||
    c == '\\' || c == ']' || c == '^' || c == '|' || c == '%'

/-- Host extraction from an authority chunk: drop the userinfo up to the
last `'@'`, then take the host up to a `':'` (port). -/
def hostOfAuthority (authority : Str) : Str :=
  let hostPort := (authority.reverse.takeWhile (fun c => c != '@')).reverse
  hostPort.takeWhile (fun c => c != ':')

/-- Model of the host platform's WHATWG `new URL(url)` constructor,
restricted to what `getDomainFromUrl` observes: the hostname, already
lowercased by the parser, or an error when the constructor throws.  For a
special scheme the slashes after the `':'` are skipped and a non-empty
valid host is required; a non-special scheme yields an empty hostname
unless it carries an explicit `//` authority. -/
def parseURL (url : Str) : Except Unit Str :=
  match parseScheme url with
  | none => Except.error ()
  | some (scheme, rest) =>
    if scheme ∈ specialSchemes then
      let afterSlashes := rest.dropWhile (fun c => c == '/' || c == '\\')
      let authority := afterSlashes.takeWhile (fun c => !(isAuthorityEnd c))
      let host := hostOfAuthority authority
      if host = [] ∨ host.any isForbiddenHostChar then Except.error ()
      else Except.ok (jsToLower host)
    else
      match rest with
      | '/' :: '/' :: r =>
        let authority := r.takeWhile (fun c => !(isAuthorityEnd c))
        let host := hostOfAuthority authority
        if host.any isForbiddenHostChar then Except.error ()
        else Except.ok (jsToLower host)
      | _ => Except.ok []

/-- Embeds `getDomainFromUrl` (`part_001`, lines 49–55):
`try { return new URL(url).hostname.toLowerCase(); } catch { return ""; }`. -/
def getDomainFromUrl (url : Str) : Str :=
  match parseURL url with
  | Except.ok host => jsToLower host
  | Except.error _ => []

/-! ## Basic lemmas about the embedded operations -/

theorem stripWww_www_append (e : Str) : stripWww (wwwDot ++ e) = e := by
  unfold stripWww
  rw [if_pos (List.prefix_append _ _)]
  rfl

theorem stripWww_eq_self {s : Str} (h : ¬ wwwDot <+: s) :
    stripWww s = s := if_neg h

theorem keywordsOverlap_eq_true_iff (pks rks : List Str) :
    keywordsOverlap pks rks = true ↔
      ∃ pk ∈ pks, ∃ rk ∈ rks, 4 ≤ pk.length ∧ 4 ≤ rk.length ∧
        (pk = rk ∨ rk <:+: pk ∨ pk <:+: rk) := by
  simp only [keywordsOverlap, List.any_eq_true, Bool.and_eq_true,
    decide_eq_true_eq, Bool.or_eq_true, beq_iff_eq]
  constructor
  · rintro ⟨pk, hpk, h4, rk, hrk, h4r, hcmp⟩
    exact ⟨pk, hpk, rk, hrk, h4, h4r, or_assoc.mp hcmp⟩
  · rintro ⟨pk, hpk, rk, hrk, h4, h4r, hcmp⟩
    exact ⟨pk, hpk, h4, rk, hrk, h4r, or_assoc.mpr hcmp⟩

theorem keywordsOverlap_nil_left (rks : List Str) :
    keywordsOverlap [] rks = false := rfl

theorem keywordsOverlap_nil_right (pks : List Str) :
    keywordsOverlap pks [] = false := by
  simp [keywordsOverlap]

theorem classifyCleaned_eq_false_iff (cr cp : Str) :
    classifyCleaned cr cp = false ↔
      cr = cp ∨ ('.' :: cp) <:+ cr ∨ ('.' :: cr) <:+ cp ∨
        getBaseDomain cr = getBaseDomain cp ∨
        keywordsOverlap (extractDomainKeywords cp)
          (extractDomainKeywords cr) = true := by
  unfold classifyCleaned
  split_ifs with h1 h2 h3 h4 h5 <;> simp_all

theorem classifyCleaned_eq_false_of {cr cp : Str}
    (h : cr = cp ∨ ('.' :: cp) <:+ cr ∨ ('.' :: cr) <:+ cp ∨
      getBaseDomain cr = getBaseDomain cp ∨
      keywordsOverlap (extractDomainKeywords cp)
        (extractDomainKeywords cr) = true) :
    classifyCleaned cr cp = false :=
  (classifyCleaned_eq_false_iff cr cp).2 h

theorem classifyCleaned_eq_true_iff (cr cp : Str) :
    classifyCleaned cr cp = true ↔
      ¬ (cr = cp ∨ ('.' :: cp) <:+ cr ∨ ('.' :: cr) <:+ cp ∨
        getBaseDomain cr = getBaseDomain cp ∨
        keywordsOverlap (extractDomainKeywords cp)
          (extractDomainKeywords cr) = true) := by
  rw [← classifyCleaned_eq_false_iff, Bool.eq_false_iff, ne_eq, not_not]

theorem getBaseDomain_ne_nil {s : Str} (h : s ≠ []) : getBaseDomain s ≠ [] := by
  unfold getBaseDomain
  by_cases h2 : 2 ≤ (splitOnChar (fun c => c == '.') s).length
  · rw [if_pos h2]
    have hlen : ((splitOnChar (fun c => c == '.') s).drop
        ((splitOnChar (fun c => c == '.') s).length - 2)).length = 2 := by
      rw [List.length_drop]
      omega
    obtain ⟨a, b, hab⟩ := List.length_eq_two.mp hlen
    rw [hab]
    show a ++ '.' :: b ≠ []
    simp
  · rwa [if_neg h2]

/-! ## Claim theorems -/

/-- C1: for every pair of strings, the full `isThirdPartyDomain` variant
returns `false` exactly when, after stripping a single leading `"www."`
from each argument, (1) the stripped domains are equal, or (2) the
stripped request domain ends with `"."` followed by the stripped page
domain, or (3) the stripped page domain ends with `"."` followed by the
stripped request domain, or (4) the last two dot-separated labels of each
stripped domain (the whole domain when it has fewer than two labels) are
equal, or (5) the two keyword sets contain a pair of keywords, one from
each set, each of length at least 4, that are equal or one of which is a
substring of the other — and returns `true` otherwise. -/
theorem third_party_false_characterization (requestDomain pageDomain : Str) :
    isThirdPartyDomain requestDomain pageDomain = false ↔
      (stripWww requestDomain = stripWww pageDomain ∨
        ('.' :: stripWww pageDomain) <:+ stripWww requestDomain ∨
        ('.' :: stripWww requestDomain) <:+ stripWww pageDomain ∨
        getBaseDomain (stripWww requestDomain) =
          getBaseDomain (stripWww pageDomain) ∨
        ∃ pk ∈ extractDomainKeywords (stripWww pageDomain),
          ∃ rk ∈ extractDomainKeywords (stripWww requestDomain),
            4 ≤ pk.length ∧ 4 ≤ rk.length ∧
              (pk = rk ∨ rk <:+: pk ∨ pk <:+: rk)) := by
  rw [isThirdPartyDomain, classifyCleaned_eq_false_iff,
    keywordsOverlap_eq_true_iff]

/-- C7: self-comparison is always first-party: for every string `d`,
`isThirdPartyDomain d d = false`. -/
theorem self_comparison_first_party (d : Str) :
    isThirdPartyDomain d d = false := by
  simp [isThirdPartyDomain, classifyCleaned]

/-- C8: www-stripping symmetry: for every string `d`,
`isThirdPartyDomain ("www." ++ d) d = false` and
`isThirdPartyDomain d ("www." ++ d) = false`. -/
theorem www_stripping_symmetry (d : Str) :
    isThirdPartyDomain (wwwDot ++ d) d = false ∧
      isThirdPartyDomain d (wwwDot ++ d) = false := by
  unfold isThirdPartyDomain
  rw [stripWww_www_append]
  by_cases hp : wwwDot <+: d
  · obtain ⟨e, rfl⟩ := hp
    rw [stripWww_www_append]
    have hsuf : ('.' :: e) <:+ wwwDot ++ e := by
      show ('.' :: e) <:+ ['w', 'w', 'w'] ++ ('.' :: e)
      exact List.suffix_append _ _
    exact ⟨classifyCleaned_eq_false_of (Or.inr (Or.inl hsuf)),
      classifyCleaned_eq_false_of (Or.inr (Or.inr (Or.inl hsuf)))⟩
  · rw [stripWww_eq_self hp]
    exact ⟨classifyCleaned_eq_false_of (Or.inl rfl),
      classifyCleaned_eq_false_of (Or.inl rfl)⟩

/-- C9: threshold boundary case: `isThirdPartyDomain "api.com"
"apigateway.io" = true`; the shared token `"api"` is in the generic-word
stoplist (and is shorter than the length-4 comparison threshold), so
`"api.com"` contributes no keywords at all and the keyword-overlap
fallback does not fire. -/
theorem keyword_threshold_boundary_api :
    isThirdPartyDomain "api.com".toList "apigateway.io".toList = true ∧
      extractDomainKeywords "api.com".toList = [] ∧
      "api".toList ∈ genericWords ∧ "api".toList.length < 4 := by
  refine ⟨by decide, by decide, by decide, by decide⟩

/-- C2: the spec requires `isThirdPartyDomain` to normalize case itself
before any comparison, but the implementation never calls `toLowerCase`:
at the input pair `("A.com", "a.com")` the classifier answers `true`
while on the lowercased pair it answers `false`, so
`isThirdPartyDomain r p = isThirdPartyDomain (toLowerCase r)
(toLowerCase p)` fails. -/
theorem case_normalization_missing :
    isThirdPartyDomain "A.com".toList "a.com".toList = true ∧
      isThirdPartyDomain (jsToLower "A.com".toList)
        (jsToLower "a.com".toList) = false ∧
      isThirdPartyDomain "A.com".toList "a.com".toList ≠
        isThirdPartyDomain (jsToLower "A.com".toList)
          (jsToLower "a.com".toList) := by
  refine ⟨by decide, by decide, by decide⟩

/-- C5: `isKnownTracker domain` returns `true` exactly when the
lowercased domain is verbatim a member of the fixed `KNOWN_TRACKERS`
set; in particular `isKnownTracker "GOOGLE-ANALYTICS.COM" = true` and
`isKnownTracker "sub.google-analytics.com" = false`. -/
theorem known_tracker_exact_membership :
    (∀ domain : Str,
        isKnownTracker domain = true ↔ jsToLower domain ∈ KNOWN_TRACKERS) ∧
      isKnownTracker "GOOGLE-ANALYTICS.COM".toList = true ∧
      isKnownTracker "sub.google-analytics.com".toList = false :=
  ⟨fun domain => by simp [isKnownTracker], by decide, by decide⟩

/-- C3 (counterexample): the claim `isThirdPartyDomain p "" = true` for
every string `p` fails at `p = ""`: the equality check fires on the pair
of empty domains and the classifier answers `false`. -/
theorem empty_pair_counterexample : isThirdPartyDomain [] [] = false := by
  decide

/-- C3 (amended): for every string `p` whose `"www."`-stripped form is
non-empty and does not end with `'.'`, `isThirdPartyDomain "" p = true`
and `isThirdPartyDomain p "" = true` (the empty string falls through
every positive check), and `isKnownTracker "" = false`.  When `p` strips
to the empty string (`p ∈ {"", "www."}`) the equality check fires, and
when the stripped `p` ends with `'.'` a subdomain check against the
empty string fires; in those cases the classifier answers `false`. -/
theorem empty_domain_safe_default :
    (∀ p : Str, stripWww p ≠ [] → ¬ (['.'] <:+ stripWww p) →
      isThirdPartyDomain [] p = true ∧ isThirdPartyDomain p [] = true) ∧
      isKnownTracker [] = false := by
  refine ⟨fun p hne hdot => ⟨?_, ?_⟩, by decide⟩
  · show classifyCleaned (stripWww []) (stripWww p) = true
    have h0 : stripWww ([] : Str) = [] := rfl
    rw [h0, classifyCleaned_eq_true_iff]
    rintro (h | h | h | h | h)
    · exact hne h.symm
    · have := h.length_le
      simp at this
    · exact hdot h
    · have hb : getBaseDomain ([] : Str) = [] := rfl
      exact getBaseDomain_ne_nil hne (h.symm.trans hb)
    · have he : extractDomainKeywords ([] : Str) = [] := rfl
      rw [he, keywordsOverlap_nil_right] at h
      exact Bool.false_ne_true h
  · show classifyCleaned (stripWww p) (stripWww []) = true
    have h0 : stripWww ([] : Str) = [] := rfl
    rw [h0, classifyCleaned_eq_true_iff]
    rintro (h | h | h | h | h)
    · exact hne h
    · exact hdot h
    · have := h.length_le
      simp at this
    · have hb : getBaseDomain ([] : Str) = [] := rfl
      exact getBaseDomain_ne_nil hne (h.trans hb)
    · have he : extractDomainKeywords ([] : Str) = [] := rfl
      rw [he, keywordsOverlap_nil_left] at h
      exact Bool.false_ne_true h

/-- Witness for the amended C3 at the concrete page domain
`"x.com"`. -/
theorem empty_domain_safe_default_witness :
    (stripWww "x.com".toList ≠ [] ∧
        ¬ (['.'] <:+ stripWww "x.com".toList)) ∧
      isThirdPartyDomain [] "x.com".toList = true ∧
      isThirdPartyDomain "x.com".toList [] = true :=
  ⟨⟨by decide, by decide⟩,
    empty_domain_safe_default.1 "x.com".toList (by decide) (by decide)⟩

/-- C4 (counterexample): the simple client variant and the full variant
of `isThirdPartyDomain` disagree at
`("a.google.com", "b.google.com")`: the simple variant answers `true`
(no suffix relation) while the full variant answers `false` (shared
two-label base domain `google.com`). -/
theorem variants_disagree :
    isThirdPartyDomainSimple "a.google.com".toList "b.google.com".toList
        = true ∧
      isThirdPartyDomain "a.google.com".toList "b.google.com".toList
        = false ∧
      isThirdPartyDomainSimple "a.google.com".toList "b.google.com".toList
        ≠ isThirdPartyDomain "a.google.com".toList "b.google.com".toList := by
  refine ⟨by decide, by decide, by decide⟩

/-- C4 (amended): the two `isThirdPartyDomain` variants do not compute
the same function, but they agree (both first-party) on every pair
where, after `"www."`-stripping, the domains are equal or the request
domain ends with `"."` followed by the page domain. -/
theorem variants_agree_on_shared_checks (requestDomain pageDomain : Str)
    (h : stripWww requestDomain = stripWww pageDomain ∨
      ('.' :: stripWww pageDomain) <:+ stripWww requestDomain) :
    isThirdPartyDomainSimple requestDomain pageDomain = false ∧
      isThirdPartyDomain requestDomain pageDomain = false := by
  have hsuf : stripWww pageDomain <:+ stripWww requestDomain := by
    rcases h with h | h
    · exact h ▸ List.suffix_refl _
    · exact (List.suffix_cons '.' (stripWww pageDomain)).trans h
  constructor
  · simp [isThirdPartyDomainSimple, hsuf]
  · exact classifyCleaned_eq_false_of (h.imp id Or.inl)

/-- Witness for the amended C4 at
`("sub.example.com", "example.com")`. -/
theorem variants_agree_witness :
    (stripWww "sub.example.com".toList = stripWww "example.com".toList ∨
        ('.' :: stripWww "example.com".toList) <:+
          stripWww "sub.example.com".toList) ∧
      isThirdPartyDomainSimple "sub.example.com".toList
          "example.com".toList = false ∧
      isThirdPartyDomain "sub.example.com".toList
          "example.com".toList = false :=
  ⟨by decide,
    variants_agree_on_shared_checks "sub.example.com".toList
      "example.com".toList (by decide)⟩

/-- C6: `getDomainFromUrl` never raises: it returns the lowercased
hostname whenever the URL parses and the empty string whenever parsing
fails; in particular `getDomainFromUrl "not a url" = ""` and
`getDomainFromUrl "HTTPS://Example.COM/path" = "example.com"`.  The host
platform's WHATWG `URL` constructor is modelled by `parseURL`. -/
theorem get_domain_from_url_contract :
    (∀ url host : Str, parseURL url = Except.ok host →
        getDomainFromUrl url = jsToLower host) ∧
      (∀ url : Str, parseURL url = Except.error () →
        getDomainFromUrl url = []) ∧
      getDomainFromUrl "not a url".toList = [] ∧
      getDomainFromUrl "HTTPS://Example.COM/path".toList =
        "example.com".toList := by
  refine ⟨fun url host h => ?_, fun url h => ?_, by decide, by decide⟩
  · simp [getDomainFromUrl, h]
  · simp [getDomainFromUrl, h]

/-- Witness for C6 at the concrete URL `"HTTPS://Example.COM/path"`. -/
theorem get_domain_from_url_witness :
    parseURL "HTTPS://Example.COM/path".toList =
        Except.ok "example.com".toList ∧
      getDomainFromUrl "HTTPS://Example.COM/path".toList =
        jsToLower "example.com".toList :=
  ⟨rfl, get_domain_from_url_contract.1 _ _ rfl⟩

theorem insertKw_self_mem (ks : List Str) (x : Str) : x ∈ insertKw ks x := by
  unfold insertKw
  split_ifs with h
  · exact h
  · simp

theorem insertKw_eq_of_mem {ks : List Str} {x : Str} (h : x ∈ ks) :
    insertKw ks x = ks := if_pos h

theorem stemExpand_foldl_noop (part : Str) :
    ∀ (l ks : List Str), part ∈ ks → (∀ ek ∈ l, ek ∈ ks) →
      l.foldl
        (fun acc ek =>
          if 4 ≤ ek.length ∧ (ek <:+: part ∨ part <:+: ek) then
            insertKw (insertKw acc ek) part
          else acc)
        ks = ks := by
  intro l
  induction l with
  | nil => intro ks _ _; rfl
  | cons e es ih =>
    intro ks hp hs
    have he : e ∈ ks := hs e (List.mem_cons_self e es)
    have hes : ∀ ek ∈ es, ek ∈ ks := fun x hx => hs x (List.mem_cons_of_mem e hx)
    rw [List.foldl_cons]
    by_cases hc : 4 ≤ e.length ∧ (e <:+: part ∨ part <:+: e)
    · rw [if_pos hc, insertKw_eq_of_mem he, insertKw_eq_of_mem hp]
      exact ih ks hp hes
    · rw [if_neg hc]
      exact ih ks hp hes

/-- The stem-expansion block, run on a keyword set that already contains
the current token, returns the set unchanged: every `Set.add` it
performs re-adds a present element. -/
theorem stemExpand_noop (ks : List Str) (part : Str) (hp : part ∈ ks) :
    stemExpand ks part = ks :=
  stemExpand_foldl_noop part ks ks hp (fun _ h => h)

/-- C10: the length-≥6 stem-expansion block inside
`extractDomainKeywords` is a no-op: for every domain string the function
returns exactly the tokens of length ≥ 3 surviving the generic-word
stoplist (after `"www."`/TLD stripping and splitting on `'.'`, `'-'`,
`'_'`), so deleting the block (`extractDomainKeywordsSimple`) leaves the
result unchanged. -/
theorem stem_expansion_block_noop (domain : Str) :
    extractDomainKeywords domain = extractDomainKeywordsSimple domain := by
  unfold extractDomainKeywords extractDomainKeywordsSimple
  apply List.foldl_ext
  intro ks part _
  by_cases h3 : 3 ≤ part.length ∧ part ∉ genericWords
  · rw [if_pos h3, if_pos h3]
    by_cases h6 : 6 ≤ part.length
    · rw [if_pos h6]
      exact stemExpand_noop _ _ (insertKw_self_mem ks part)
    · rw [if_neg h6]
  · rw [if_neg h3, if_neg h3]

/-! ## Regression checks: the spec's worked examples, evaluated on the embedding -/
example : getDomainFromUrl "not a url".toList = [] := by decide
example : getDomainFromUrl "HTTPS://Example.COM/path".toList = "example.com".toList := by decide
example : getDomainFromUrl "https://user:pw@Ex.com:8080/p?q#f".toList = "ex.com".toList := by decide
example : getDomainFromUrl "mailto:foo@bar.com".toList = [] := by decide
example : getDomainFromUrl "https://".toList = [] := by decide
example : isThirdPartyDomain "sub.example.com".toList "example.com".toList = false := by decide
example : isThirdPartyDomain "example.com".toList "sub.example.com".toList = false := by decide
example : isThirdPartyDomain "mail.google.com".toList "drive.google.com".toList = false := by decide
example : isThirdPartyDomain "doubleclick.net".toList "example.com".toList = true := by decide
example : isThirdPartyDomain "githubassets.com".toList "github.com".toList = false := by decide
example : isThirdPartyDomain "api.com".toList "apigateway.io".toList = true := by decide
example : isKnownTracker "GOOGLE-ANALYTICS.COM".toList = true := by decide
example : isKnownTracker "sub.google-analytics.com".toList = false := by decide
example : extractDomainKeywords "githubassets.com".toList = ["githubassets".toList] := by decide
example : isThirdPartyDomain "A.com".toList "a.com".toList = true := by decide
example : isThirdPartyDomainSimple "a.google.com".toList "b.google.com".toList = true := by decide
example : isThirdPartyDomain "a.google.com".toList "b.google.com".toList = false := by decide
example : isThirdPartyDomain [] [] = false := by decide
